import Mathlib

/-!
# go-grpc: option lists built by `NewService` / `NewFunction`

A shallow embedding of `go-grpc.go` (package `grpc`), of the greeter handlers
(`go-grpc_test.go`, `examples/greeter/function/main.go`) and of the parts of
their collaborators that the constructors touch: `time.Duration` constants and
the `micro.Option` list handed to `micro.NewService` / `micro.NewFunction`.

Go identifiers keep their package-qualified names (`micro.RegisterTTL` is the
constructor `micro.Option.RegisterTTL`, `grpc.NewService` is `grpc.NewService`).
-/

/-! ## Package `time` -/

/-- Go `time.Duration`: a signed count of nanoseconds. -/
abbrev time.Duration := Int

/-- Go `time.Nanosecond`. -/
def time.Nanosecond : time.Duration := 1

/-- Go `time.Microsecond = 1000 * Nanosecond`. -/
def time.Microsecond : time.Duration := 1000 * time.Nanosecond

/-- Go `time.Millisecond = 1000 * Microsecond`. -/
def time.Millisecond : time.Duration := 1000 * time.Microsecond

/-- Go `time.Second = 1000 * Millisecond`. -/
def time.Second : time.Duration := 1000 * time.Millisecond

/-- Go `time.Minute = 60 * Second`. -/
def time.Minute : time.Duration := 60 * time.Second

/-- Largest value of a Go `int64`, the representation of `time.Duration`. -/
def time.maxDuration : time.Duration := 2 ^ 63 - 1

/-! ## Handles of the collaborators

The constructors only store and pass on these values; a handle is modelled by
its identity. -/

/-- A `client.Client` value, identified by the object it points to. -/
structure client.Client where
  id : Nat
deriving DecidableEq, Repr

/-- A `server.Server` value, identified by the object it points to. -/
structure server.Server where
  id : Nat
deriving DecidableEq, Repr

/-- A `registry.Registry` value, identified by the object it points to. -/
structure registry.Registry where
  id : Nat
deriving DecidableEq, Repr

/-- A `context.Context` value (cancellation scope), identified by the object. -/
structure context.Context where
  id : Nat
deriving DecidableEq, Repr

/-- A post-start hook `func() error`, identified by the closure. -/
structure micro.Hook where
  id : Nat
deriving DecidableEq, Repr

/-- A `*tls.Config` value (the security context), identified by the object. -/
structure tls.Config where
  id : Nat
deriving DecidableEq, Repr

/-! ## Package `micro`: options and their fold -/

/-- The option keys of the configuration surface. -/
inductive micro.Key where
  | name
  | registry
  | client
  | server
  | ttl
  | renewInterval
  | context
  | afterStart
  | security
deriving DecidableEq, Repr

/-- A value stored under an option key. -/
inductive micro.Value where
  | str (s : String)
  | registry (r : registry.Registry)
  | client (c : client.Client)
  | server (s : server.Server)
  | duration (d : time.Duration)
  | context (c : context.Context)
  | hook (h : Option micro.Hook)
  | security (t : Option tls.Config)
deriving DecidableEq, Repr

/-- Modelled from the spec: the configuration struct `micro.Options` (declared
in the go-micro framework, not in this repository's sources), one field per
option key of the configuration surface. -/
structure micro.Options where
  name : String
  registry : registry.Registry
  client : client.Client
  server : server.Server
  ttl : time.Duration
  renewInterval : time.Duration
  context : context.Context
  afterStart : Option micro.Hook
  security : Option tls.Config
deriving DecidableEq, Repr

/-- The value a configuration holds for a key. -/
def micro.Options.get (o : micro.Options) : micro.Key → micro.Value
  | .name => .str o.name
  | .registry => .registry o.registry
  | .client => .client o.client
  | .server => .server o.server
  | .ttl => .duration o.ttl
  | .renewInterval => .duration o.renewInterval
  | .context => .context o.context
  | .afterStart => .hook o.afterStart
  | .security => .security o.security

/-- Modelled from the spec: a `micro.Option`, one configuration mutation. The
Go type is `func(*micro.Options)`, built by the option functions used in the
sources (`micro.Name`, `micro.Registry`, `micro.Client`, `micro.Server`,
`micro.RegisterTTL`, `micro.RegisterInterval`, `micro.Context`,
`micro.AfterStart`, and this package's `WithTLS`). -/
inductive micro.Option where
  | Name (n : String)
  | Registry (r : registry.Registry)
  | Client (c : client.Client)
  | Server (s : server.Server)
  | RegisterTTL (t : time.Duration)
  | RegisterInterval (t : time.Duration)
  | Context (ctx : context.Context)
  | AfterStart (fn : micro.Hook)
  | WithTLS (t : tls.Config)
deriving DecidableEq, Repr

/-- The option key an option writes. -/
def micro.Option.key : micro.Option → micro.Key
  | .Name _ => .name
  | .Registry _ => .registry
  | .Client _ => .client
  | .Server _ => .server
  | .RegisterTTL _ => .ttl
  | .RegisterInterval _ => .renewInterval
  | .Context _ => .context
  | .AfterStart _ => .afterStart
  | .WithTLS _ => .security

/-- The value an option writes under its key. -/
def micro.Option.value : micro.Option → micro.Value
  | .Name n => .str n
  | .Registry r => .registry r
  | .Client c => .client c
  | .Server s => .server s
  | .RegisterTTL t => .duration t
  | .RegisterInterval t => .duration t
  | .Context ctx => .context ctx
  | .AfterStart fn => .hook (some fn)
  | .WithTLS t => .security (some t)

/-- Modelled from the spec: applying one option to a configuration ("mapping
from option key to value, built by sequential merge; last writer for a given key
wins"): the option overwrites its own key and leaves every other key as it
was. -/
def micro.Option.apply (o : micro.Option) (cfg : micro.Options) : micro.Options :=
  match o with
  | .Name n => { cfg with name := n }
  | .Registry r => { cfg with registry := r }
  | .Client c => { cfg with client := c }
  | .Server s => { cfg with server := s }
  | .RegisterTTL t => { cfg with ttl := t }
  | .RegisterInterval t => { cfg with renewInterval := t }
  | .Context ctx => { cfg with context := ctx }
  | .AfterStart fn => { cfg with afterStart := some fn }
  | .WithTLS t => { cfg with security := some t }

/-- Modelled from the spec: the fold of an option list ("an explicit ordered
list of configuration mutations folded left-to-right into one immutable
configuration struct"). `defaults` are the framework-level defaults, which the
go-micro framework supplies and this repository does not define. -/
def micro.newOptions (defaults : micro.Options) (opts : List micro.Option) : micro.Options :=
  opts.foldl (fun cfg o => o.apply cfg) defaults

/-- A `micro.Service` runtime: the configuration it was built with. -/
structure micro.Service where
  opts : micro.Options
deriving DecidableEq, Repr

/-- A `micro.Function` runtime: the configuration it was built with. -/
structure micro.Function where
  opts : micro.Options
deriving DecidableEq, Repr

/-- Modelled from the spec: `micro.NewService(options...)` of the go-micro
framework; it folds the option list over the framework defaults and returns the
runtime. Its Go result type is `micro.Service`, with no error result. -/
def micro.NewService (defaults : micro.Options) (options : List micro.Option) : micro.Service :=
  ⟨micro.newOptions defaults options⟩

/-- Modelled from the spec: `micro.NewFunction(options...)` of the go-micro
framework; it folds the option list over the framework defaults and returns the
runtime. Its Go result type is `micro.Function`, with no error result. -/
def micro.NewFunction (defaults : micro.Options) (options : List micro.Option) : micro.Function :=
  ⟨micro.newOptions defaults options⟩

/-! ## Package `grpc` (`go-grpc.go`) -/

/-- The local slice `options` of `NewService` right before the call of
`micro.NewService`: the literal `[]micro.Option{micro.Client(c), micro.Server(s)}`
followed by `append(options, opts...)`. `c` and `s` are the results of
`client.NewClient()` and `server.NewServer()`. -/
def grpc.NewService.options (c : client.Client) (s : server.Server)
    (opts : List micro.Option) : List micro.Option :=
  let options := [micro.Option.Client c, micro.Option.Server s]
  options ++ opts

/-- `func NewService(opts ...micro.Option) micro.Service`. -/
def grpc.NewService (defaults : micro.Options) (c : client.Client) (s : server.Server)
    (opts : List micro.Option) : micro.Service :=
  micro.NewService defaults (grpc.NewService.options c s opts)

/-- The local slice `options` of `NewFunction` right before the call of
`micro.NewFunction`: the four-element literal followed by
`append(options, opts...)`. -/
def grpc.NewFunction.options (c : client.Client) (s : server.Server)
    (opts : List micro.Option) : List micro.Option :=
  let options := [micro.Option.Client c, micro.Option.Server s,
    micro.Option.RegisterTTL time.Minute,
    micro.Option.RegisterInterval (time.Second * 30)]
  options ++ opts

/-- `func NewFunction(opts ...micro.Option) micro.Function`. -/
def grpc.NewFunction (defaults : micro.Options) (c : client.Client) (s : server.Server)
    (opts : List micro.Option) : micro.Function :=
  micro.NewFunction defaults (grpc.NewFunction.options c s opts)

/-! ## The builder contract `build(mode, defaults, userOptions)` -/

/-- The two modes of a runtime. -/
inductive Mode where
  | Service
  | Function
deriving DecidableEq, Repr

/-- The error kinds of the error-handling design. -/
inductive ErrorKind where
  | ConfigError
  | RegistrationError
  | StartupError
  | ServerError
  | RenewalError
  | DeregistrationError
deriving DecidableEq, Repr

/-- A built runtime: its mode and configuration. -/
structure Runtime where
  mode : Mode
  opts : micro.Options
deriving DecidableEq, Repr

/-- What a caller observes from building in a mode: `grpc.NewService` for
Service, `grpc.NewFunction` for Function. Both Go functions have one result,
the runtime, and no error result, and their bodies have no failing branch, so
every call is observed as the runtime returned. -/
def grpc.build (mode : Mode) (defaults : micro.Options) (c : client.Client)
    (s : server.Server) (opts : List micro.Option) : Except ErrorKind Runtime :=
  match mode with
  | .Service => .ok ⟨.Service, (grpc.NewService defaults c s opts).opts⟩
  | .Function => .ok ⟨.Function, (grpc.NewFunction defaults c s opts).opts⟩

/-! ## The greeter handlers -/

/-- The message `hello.Request` (generated proto type): its `Name` field. -/
structure hello.Request where
  Name : String
deriving DecidableEq, Repr

/-- The message `hello.Response` (generated proto type): its `Msg` field. -/
structure hello.Response where
  Msg : String
deriving DecidableEq, Repr

/-- `func (t *testHandler) Hello(ctx, req, rsp) error` of `go-grpc_test.go`:
the response after the call and the returned error (`none` is `nil`). The
context argument is not read. -/
def grpc.testHandler.Hello (req : hello.Request) (rsp : hello.Response) :
    hello.Response × Option String :=
  let rsp := { rsp with Msg := "Hello " ++ req.Name }
  (rsp, none)

/-- `func (s *Say) Hello(ctx, req, rsp) error` of
`examples/greeter/function/main.go`: the response after the call and the
returned error (`none` is `nil`). The context argument is not read. -/
def Say.Hello (req : hello.Request) (rsp : hello.Response) :
    hello.Response × Option String :=
  let rsp := { rsp with Msg := "Hello " ++ req.Name }
  (rsp, none)

/-! ## A concrete input -/

/-- A concrete framework-default configuration, used to evaluate the
constructors at explicit inputs. -/
def micro.sampleDefaults : micro.Options :=
  { name := "go-server", registry := ⟨0⟩, client := ⟨0⟩, server := ⟨0⟩,
    ttl := 0, renewInterval := 0, context := ⟨0⟩, afterStart := none, security := none }

/-! ## Lemmas about the fold -/

/-- An option writes its value under its own key and leaves the other keys. -/
theorem micro.Option.get_apply (o : micro.Option) (cfg : micro.Options) (k : micro.Key) :
    (o.apply cfg).get k = if o.key = k then o.value else cfg.get k := by
  cases o <;> cases k <;> rfl

/-- Folding a concatenation folds the second list over the result of the first. -/
theorem micro.newOptions_append (d : micro.Options) (xs ys : List micro.Option) :
    micro.newOptions d (xs ++ ys) = micro.newOptions (micro.newOptions d xs) ys := by
  simp [micro.newOptions, List.foldl_append]

/-- Folding a list whose head is `o` applies `o` first. -/
theorem micro.newOptions_cons (d : micro.Options) (o : micro.Option) (xs : List micro.Option) :
    micro.newOptions d (o :: xs) = micro.newOptions (o.apply d) xs := rfl

/-- A key that no option of the list writes keeps its initial value. -/
theorem micro.get_newOptions_of_not_written (k : micro.Key) (opts : List micro.Option) :
    ∀ d : micro.Options, (∀ o ∈ opts, o.key ≠ k) → (micro.newOptions d opts).get k = d.get k := by
  induction opts with
  | nil => intro d _; rfl
  | cons o xs ih =>
    intro d h
    rw [micro.newOptions_cons, ih (o.apply d) (fun p hp => h p (List.mem_cons_of_mem o hp)),
      micro.Option.get_apply, if_neg (h o (List.mem_cons_self o xs))]

/-- The last option of a list that writes a key decides the value of the key. -/
theorem micro.get_newOptions_last_writer (d : micro.Options) (pre post : List micro.Option)
    (o : micro.Option) (h : ∀ p ∈ post, p.key ≠ o.key) :
    (micro.newOptions d (pre ++ o :: post)).get o.key = o.value := by
  rw [micro.newOptions_append, micro.newOptions_cons,
    micro.get_newOptions_of_not_written o.key post _ h, micro.Option.get_apply, if_pos rfl]

/-- The value of a key after a fold depends on the initial configuration only
through the initial value of that key. -/
theorem micro.get_newOptions_congr (k : micro.Key) (opts : List micro.Option) :
    ∀ d e : micro.Options, d.get k = e.get k →
      (micro.newOptions d opts).get k = (micro.newOptions e opts).get k := by
  induction opts with
  | nil => intro d e h; exact h
  | cons o xs ih =>
    intro d e h
    rw [micro.newOptions_cons, micro.newOptions_cons]
    apply ih
    rw [micro.Option.get_apply, micro.Option.get_apply, h]

/-- Options put in front of a list that do not write a key do not change the
value the fold gives to that key. -/
theorem micro.get_newOptions_front (k : micro.Key) (d : micro.Options)
    (front opts : List micro.Option) (h : ∀ o ∈ front, o.key ≠ k) :
    (micro.newOptions d (front ++ opts)).get k = (micro.newOptions d opts).get k := by
  rw [micro.newOptions_append]
  exact micro.get_newOptions_congr k opts _ _ (micro.get_newOptions_of_not_written k front d h)

/-- Reading the fields back from `get`. -/
theorem micro.Options.get_ttl_eq (a b : micro.Options) (h : a.get .ttl = b.get .ttl) :
    a.ttl = b.ttl := by
  simpa [micro.Options.get] using h

/-- Reading the fields back from `get`. -/
theorem micro.Options.get_renewInterval_eq (a b : micro.Options)
    (h : a.get .renewInterval = b.get .renewInterval) : a.renewInterval = b.renewInterval := by
  simpa [micro.Options.get] using h

/-- Reading the fields back from `get`. -/
theorem micro.Options.get_name_eq (a b : micro.Options) (h : a.get .name = b.get .name) :
    a.name = b.name := by
  simpa [micro.Options.get] using h

/-- An option writes the key `ttl` exactly when it is a `RegisterTTL`. -/
theorem micro.Option.key_eq_ttl (o : micro.Option) :
    o.key = .ttl ↔ ∃ t, o = .RegisterTTL t := by
  cases o <;> simp [micro.Option.key]

/-- An option writes the key `renewInterval` exactly when it is a `RegisterInterval`. -/
theorem micro.Option.key_eq_renewInterval (o : micro.Option) :
    o.key = .renewInterval ↔ ∃ t, o = .RegisterInterval t := by
  cases o <;> simp [micro.Option.key]

/-- The exact values of the two durations written by `NewFunction`. -/
theorem time.lease_values :
    time.Minute = 60000000000 ∧ time.Second * 30 = 30000000000 := by
  constructor <;> rfl

/-- A list in which some option writes key `k` splits at the last such option. -/
theorem micro.exists_last_writer (k : micro.Key) (opts : List micro.Option)
    (h : ∃ o ∈ opts, o.key = k) :
    ∃ pre o post, opts = pre ++ o :: post ∧ o.key = k ∧ ∀ p ∈ post, p.key ≠ k := by
  induction opts with
  | nil => obtain ⟨o, ho, _⟩ := h; cases ho
  | cons x xs ih =>
    by_cases hx : ∃ o ∈ xs, o.key = k
    · obtain ⟨pre, o, post, e, hk, hp⟩ := ih hx
      exact ⟨x :: pre, o, post, by rw [e]; rfl, hk, hp⟩
    · obtain ⟨o, ho, hk⟩ := h
      rcases List.mem_cons.1 ho with rfl | ho
      · exact ⟨[], o, xs, rfl, hk, fun p hp hpk => hx ⟨p, hp, hpk⟩⟩
      · exact absurd ⟨o, ho, hk⟩ hx

/-! ## The claims -/

/-- C1: for every caller option list that contains no `RegisterTTL` and no
`RegisterInterval` option, the configuration folded from the list built by
`NewFunction` has `ttl` = 1 minute (60 s = 60000000000 ns) and `renewInterval` =
30 seconds (30000000000 ns). -/
theorem grpc.NewFunction_default_lease (d : micro.Options) (c : client.Client)
    (s : server.Server) (opts : List micro.Option)
    (hT : ∀ t, micro.Option.RegisterTTL t ∉ opts)
    (hI : ∀ t, micro.Option.RegisterInterval t ∉ opts) :
    (grpc.NewFunction d c s opts).opts.ttl = time.Minute ∧
    (grpc.NewFunction d c s opts).opts.renewInterval = time.Second * 30 ∧
    (grpc.NewFunction d c s opts).opts.ttl = 60000000000 ∧
    (grpc.NewFunction d c s opts).opts.renewInterval = 30000000000 := by
  have hT' : ∀ p ∈ opts, p.key ≠ .ttl := fun p hp hk => by
    obtain ⟨t, rfl⟩ := (micro.Option.key_eq_ttl p).1 hk
    exact hT t hp
  have hI' : ∀ p ∈ opts, p.key ≠ .renewInterval := fun p hp hk => by
    obtain ⟨t, rfl⟩ := (micro.Option.key_eq_renewInterval p).1 hk
    exact hI t hp
  have h1 : (grpc.NewFunction d c s opts).opts.get .ttl = .duration time.Minute := by
    have h := micro.get_newOptions_last_writer d
      [micro.Option.Client c, micro.Option.Server s]
      (micro.Option.RegisterInterval (time.Second * 30) :: opts)
      (micro.Option.RegisterTTL time.Minute)
      (by
        intro p hp
        rcases List.mem_cons.1 hp with rfl | hp
        · simp [micro.Option.key]
        · exact hT' p hp)
    exact h
  have h2 : (grpc.NewFunction d c s opts).opts.get .renewInterval
      = .duration (time.Second * 30) := by
    have h := micro.get_newOptions_last_writer d
      [micro.Option.Client c, micro.Option.Server s, micro.Option.RegisterTTL time.Minute]
      opts (micro.Option.RegisterInterval (time.Second * 30)) hI'
    exact h
  have e1 : (grpc.NewFunction d c s opts).opts.ttl = time.Minute := by
    simpa [micro.Options.get] using h1
  have e2 : (grpc.NewFunction d c s opts).opts.renewInterval = time.Second * 30 := by
    simpa [micro.Options.get] using h2
  exact ⟨e1, e2, e1.trans time.lease_values.1, e2.trans time.lease_values.2⟩

/-- C1 at the option list of `TestGRPCFunction`: name, registry, post-start
hook and context, no lease option. -/
theorem grpc.NewFunction_default_lease_witness :
    (grpc.NewFunction micro.sampleDefaults ⟨1⟩ ⟨1⟩
        [.Name "test.function", .Registry ⟨2⟩, .AfterStart ⟨3⟩, .Context ⟨4⟩]).opts.ttl
      = time.Minute ∧
    (grpc.NewFunction micro.sampleDefaults ⟨1⟩ ⟨1⟩
        [.Name "test.function", .Registry ⟨2⟩, .AfterStart ⟨3⟩, .Context ⟨4⟩]).opts.renewInterval
      = time.Second * 30 ∧
    (grpc.NewFunction micro.sampleDefaults ⟨1⟩ ⟨1⟩
        [.Name "test.function", .Registry ⟨2⟩, .AfterStart ⟨3⟩, .Context ⟨4⟩]).opts.ttl
      = 60000000000 ∧
    (grpc.NewFunction micro.sampleDefaults ⟨1⟩ ⟨1⟩
        [.Name "test.function", .Registry ⟨2⟩, .AfterStart ⟨3⟩, .Context ⟨4⟩]).opts.renewInterval
      = 30000000000 :=
  grpc.NewFunction_default_lease micro.sampleDefaults ⟨1⟩ ⟨1⟩
    [.Name "test.function", .Registry ⟨2⟩, .AfterStart ⟨3⟩, .Context ⟨4⟩]
    (by simp) (by simp)

/-- C2: user-supplied options override the defaults. For every caller option
list `opts` and every option key `k` that some option of `opts` sets, `opts`
splits as `pre ++ o :: post` where `o` is the last option of `opts` that sets
`k` (no option of `post` writes `k`), and the configuration of `NewService` and
of `NewFunction` holds under `k` the value written by `o`, whatever the
constructor injected. -/
theorem grpc.caller_option_overrides (d : micro.Options) (c : client.Client)
    (s : server.Server) (opts : List micro.Option) (k : micro.Key)
    (h : ∃ o ∈ opts, o.key = k) :
    ∃ pre o post, opts = pre ++ o :: post ∧ o.key = k ∧ (∀ p ∈ post, p.key ≠ k) ∧
      (grpc.NewService d c s opts).opts.get k = o.value ∧
      (grpc.NewFunction d c s opts).opts.get k = o.value := by
  obtain ⟨pre, o, post, e, hk, hp⟩ := micro.exists_last_writer k opts h
  subst hk
  subst e
  refine ⟨pre, o, post, rfl, rfl, hp, ?_, ?_⟩
  · have e := micro.get_newOptions_last_writer d
      ([micro.Option.Client c, micro.Option.Server s] ++ pre) post o hp
    rw [List.append_assoc] at e
    exact e
  · have e := micro.get_newOptions_last_writer d
      ([micro.Option.Client c, micro.Option.Server s, micro.Option.RegisterTTL time.Minute,
        micro.Option.RegisterInterval (time.Second * 30)] ++ pre) post o hp
    rw [List.append_assoc] at e
    exact e

/-- C2 at a caller list that sets the TTL twice and then a name: some option
sets the key `ttl`, and the split and the TTL of both runtimes exist as C2
states. -/
theorem grpc.caller_option_overrides_witness :
    (∃ o ∈ [micro.Option.RegisterTTL 7, .RegisterTTL (time.Second * 5), .Name "x"],
      o.key = micro.Key.ttl) ∧
    ∃ pre o post,
      [micro.Option.RegisterTTL 7, .RegisterTTL (time.Second * 5), .Name "x"]
        = pre ++ o :: post ∧ o.key = micro.Key.ttl ∧ (∀ p ∈ post, p.key ≠ micro.Key.ttl) ∧
      (grpc.NewService micro.sampleDefaults ⟨1⟩ ⟨1⟩
        [.RegisterTTL 7, .RegisterTTL (time.Second * 5), .Name "x"]).opts.get .ttl = o.value ∧
      (grpc.NewFunction micro.sampleDefaults ⟨1⟩ ⟨1⟩
        [.RegisterTTL 7, .RegisterTTL (time.Second * 5), .Name "x"]).opts.get .ttl = o.value :=
  ⟨⟨.RegisterTTL 7, by simp, rfl⟩,
    grpc.caller_option_overrides micro.sampleDefaults ⟨1⟩ ⟨1⟩
      [.RegisterTTL 7, .RegisterTTL (time.Second * 5), .Name "x"] .ttl
      ⟨.RegisterTTL 7, by simp, rfl⟩⟩

/-- C3, refuted as stated: the caller passes `RegisterInterval(1 minute)` and
`RegisterTTL(30 s)`, so `renewInterval >= ttl`, and building in either mode
does not fail with `ConfigError`: it returns a runtime that holds exactly these
two values. -/
theorem grpc.build_interval_ge_ttl_counterexample :
    time.Second * 30 ≤ time.Minute ∧
    grpc.build .Service micro.sampleDefaults ⟨1⟩ ⟨1⟩
        [.RegisterInterval time.Minute, .RegisterTTL (time.Second * 30)]
      ≠ .error .ConfigError ∧
    grpc.build .Function micro.sampleDefaults ⟨1⟩ ⟨1⟩
        [.RegisterInterval time.Minute, .RegisterTTL (time.Second * 30)]
      ≠ .error .ConfigError ∧
    grpc.build .Service micro.sampleDefaults ⟨1⟩ ⟨1⟩
        [.RegisterInterval time.Minute, .RegisterTTL (time.Second * 30)]
      = .ok ⟨.Service, { micro.sampleDefaults with
          client := ⟨1⟩, server := ⟨1⟩, ttl := 30000000000, renewInterval := 60000000000 }⟩ ∧
    grpc.build .Function micro.sampleDefaults ⟨1⟩ ⟨1⟩
        [.RegisterInterval time.Minute, .RegisterTTL (time.Second * 30)]
      = .ok ⟨.Function, { micro.sampleDefaults with
          client := ⟨1⟩, server := ⟨1⟩, ttl := 30000000000, renewInterval := 60000000000 }⟩ := by
  refine ⟨by decide, ?_, ?_, rfl, rfl⟩
  · intro h; cases h
  · intro h; cases h

/-- C3, amended: when the caller supplies `RegisterInterval(i)` and
`RegisterTTL(t)` with `i >= t` (each the last option of its kind in the caller
list), building with `NewService` or `NewFunction` does not fail: it returns a
runtime of the requested mode whose configuration holds `renewInterval = i` and
`ttl = t` unchanged, so `renewInterval >= ttl` in the runtime. -/
theorem grpc.build_interval_ge_ttl_returns (mode : Mode) (d : micro.Options)
    (c : client.Client) (s : server.Server) (opts : List micro.Option)
    (i t : time.Duration) (a b a' b' : List micro.Option)
    (hI : opts = a ++ micro.Option.RegisterInterval i :: b)
    (hIb : ∀ p ∈ b, p.key ≠ .renewInterval)
    (hT : opts = a' ++ micro.Option.RegisterTTL t :: b')
    (hTb : ∀ p ∈ b', p.key ≠ .ttl)
    (hit : t ≤ i) :
    ∃ r : Runtime, grpc.build mode d c s opts = .ok r ∧ r.mode = mode ∧
      r.opts.renewInterval = i ∧ r.opts.ttl = t ∧ r.opts.ttl ≤ r.opts.renewInterval := by
  have key := fun (front : List micro.Option) =>
    And.intro
      (show (micro.newOptions d (front ++ opts)).renewInterval = i by
        have e := micro.get_newOptions_last_writer d (front ++ a) b
          (micro.Option.RegisterInterval i) hIb
        rw [List.append_assoc, ← hI] at e
        simpa [micro.Options.get, micro.Option.key, micro.Option.value] using e)
      (show (micro.newOptions d (front ++ opts)).ttl = t by
        have e := micro.get_newOptions_last_writer d (front ++ a') b'
          (micro.Option.RegisterTTL t) hTb
        rw [List.append_assoc, ← hT] at e
        simpa [micro.Options.get, micro.Option.key, micro.Option.value] using e)
  cases mode with
  | Service =>
    obtain ⟨k1, k2⟩ := key [micro.Option.Client c, micro.Option.Server s]
    exact ⟨_, rfl, rfl, k1, k2, le_of_eq_of_le k2 (le_of_le_of_eq hit k1.symm)⟩
  | Function =>
    obtain ⟨k1, k2⟩ := key [micro.Option.Client c, micro.Option.Server s,
      micro.Option.RegisterTTL time.Minute, micro.Option.RegisterInterval (time.Second * 30)]
    exact ⟨_, rfl, rfl, k1, k2, le_of_eq_of_le k2 (le_of_le_of_eq hit k1.symm)⟩

/-- C3 amended, at `RegisterInterval(1 minute)`, `RegisterTTL(30 s)` in
Function mode. -/
theorem grpc.build_interval_ge_ttl_returns_witness :
    ∃ r : Runtime,
      grpc.build .Function micro.sampleDefaults ⟨1⟩ ⟨1⟩
        [.RegisterInterval time.Minute, .RegisterTTL (time.Second * 30)] = .ok r ∧
      r.mode = .Function ∧ r.opts.renewInterval = time.Minute ∧
      r.opts.ttl = time.Second * 30 ∧ r.opts.ttl ≤ r.opts.renewInterval :=
  grpc.build_interval_ge_ttl_returns .Function micro.sampleDefaults ⟨1⟩ ⟨1⟩
    [.RegisterInterval time.Minute, .RegisterTTL (time.Second * 30)]
    time.Minute (time.Second * 30)
    [] [.RegisterTTL (time.Second * 30)] [.RegisterInterval time.Minute] []
    rfl (by simp [micro.Option.key]) rfl (by simp) (by decide)

/-- C4, refuted as stated: the caller passes `Name("")`, the resulting name is
the empty string, and building in either mode does not fail: it returns a
runtime whose name is the empty string. -/
theorem grpc.build_empty_name_counterexample :
    (micro.newOptions micro.sampleDefaults [.Name ""]).name = "" ∧
    grpc.build .Service micro.sampleDefaults ⟨1⟩ ⟨1⟩ [.Name ""] ≠ .error .ConfigError ∧
    grpc.build .Function micro.sampleDefaults ⟨1⟩ ⟨1⟩ [.Name ""] ≠ .error .ConfigError ∧
    grpc.build .Service micro.sampleDefaults ⟨1⟩ ⟨1⟩ [.Name ""]
      = .ok ⟨.Service, { micro.sampleDefaults with
          name := "", client := ⟨1⟩, server := ⟨1⟩ }⟩ ∧
    grpc.build .Function micro.sampleDefaults ⟨1⟩ ⟨1⟩ [.Name ""]
      = .ok ⟨.Function, { micro.sampleDefaults with
          name := "", client := ⟨1⟩, server := ⟨1⟩,
          ttl := 60000000000, renewInterval := 30000000000 }⟩ := by
  refine ⟨rfl, ?_, ?_, rfl, rfl⟩
  · intro h; cases h
  · intro h; cases h

/-- C4, amended: the constructors do not validate the name. For every caller
option list whose resulting name is the empty string, building with
`NewService` or `NewFunction` returns a runtime of the requested mode, and the
name of that runtime is the empty string. -/
theorem grpc.build_empty_name_returns (mode : Mode) (d : micro.Options)
    (c : client.Client) (s : server.Server) (opts : List micro.Option)
    (h : (micro.newOptions d opts).name = "") :
    ∃ r : Runtime, grpc.build mode d c s opts = .ok r ∧ r.mode = mode ∧ r.opts.name = "" := by
  cases mode with
  | Service =>
    refine ⟨_, rfl, rfl, ?_⟩
    have e := micro.get_newOptions_front .name d
      [micro.Option.Client c, micro.Option.Server s] opts (by simp [micro.Option.key])
    exact (micro.Options.get_name_eq _ _ e).trans h
  | Function =>
    refine ⟨_, rfl, rfl, ?_⟩
    have e := micro.get_newOptions_front .name d
      [micro.Option.Client c, micro.Option.Server s, micro.Option.RegisterTTL time.Minute,
        micro.Option.RegisterInterval (time.Second * 30)] opts (by simp [micro.Option.key])
    exact (micro.Options.get_name_eq _ _ e).trans h

/-- C4 amended, at the caller list `[Name("")]` in Service mode. -/
theorem grpc.build_empty_name_returns_witness :
    (micro.newOptions micro.sampleDefaults [.Name ""]).name = "" ∧
    ∃ r : Runtime, grpc.build .Service micro.sampleDefaults ⟨1⟩ ⟨1⟩ [.Name ""] = .ok r ∧
      r.mode = .Service ∧ r.opts.name = "" :=
  ⟨rfl, grpc.build_empty_name_returns .Service micro.sampleDefaults ⟨1⟩ ⟨1⟩ [.Name ""] rfl⟩

/-- C5: Service mode injects no TTL/interval default. For every caller option
list, the `RegisterTTL` / `RegisterInterval` options of the list built by
`NewService` are exactly those of the caller list, in the same order, and the
`ttl` and `renewInterval` of the resulting configuration are those obtained by
applying the caller list alone to the framework defaults. -/
theorem grpc.NewService_injects_no_lease (d : micro.Options) (c : client.Client)
    (s : server.Server) (opts : List micro.Option) :
    (grpc.NewService.options c s opts).filter
        (fun o => decide (o.key = .ttl ∨ o.key = .renewInterval))
      = opts.filter (fun o => decide (o.key = .ttl ∨ o.key = .renewInterval)) ∧
    (grpc.NewService d c s opts).opts.ttl = (micro.newOptions d opts).ttl ∧
    (grpc.NewService d c s opts).opts.renewInterval = (micro.newOptions d opts).renewInterval := by
  refine ⟨?_, ?_, ?_⟩
  · simp [grpc.NewService.options, micro.Option.key, List.filter_cons]
  · exact micro.Options.get_ttl_eq _ _
      (micro.get_newOptions_front .ttl d [micro.Option.Client c, micro.Option.Server s] opts
        (by simp [micro.Option.key]))
  · exact micro.Options.get_renewInterval_eq _ _
      (micro.get_newOptions_front .renewInterval d
        [micro.Option.Client c, micro.Option.Server s] opts (by simp [micro.Option.key]))

/-- C6: the lease defaults that `NewFunction` injects are `RegisterTTL(time.Minute)`
and `RegisterInterval(time.Second * 30)`; in exact integer nanoseconds
`time.Minute = 2 * (time.Second * 30)`, both are positive (and fit an `int64`),
and the renewal interval is strictly shorter than the TTL. -/
theorem grpc.NewFunction_lease_defaults_ratio (c : client.Client) (s : server.Server) :
    grpc.NewFunction.options c s []
      = [.Client c, .Server s, .RegisterTTL time.Minute,
          .RegisterInterval (time.Second * 30)] ∧
    time.Minute = 2 * (time.Second * 30) ∧
    0 < time.Second * 30 ∧ 0 < time.Minute ∧
    time.Second * 30 < time.Minute ∧
    time.Minute = 60000000000 ∧ time.Second * 30 = 30000000000 ∧
    time.Minute ≤ time.maxDuration := by
  refine ⟨rfl, ?_, ?_, ?_, ?_, rfl, rfl, ?_⟩ <;> decide

/-- C7: for every request, the greeter handler `Hello` of the example function
sets the response message to `"Hello "` followed by the request name and returns
no error; the test handler computes the same response and error for every
request; the name `"John"` yields `"Hello John"`. -/
theorem Say.Hello_greets (req : hello.Request) (rsp : hello.Response) :
    (Say.Hello req rsp).1.Msg = "Hello " ++ req.Name ∧
    (Say.Hello req rsp).2 = none ∧
    grpc.testHandler.Hello req rsp = Say.Hello req rsp ∧
    (grpc.testHandler.Hello req rsp).1.Msg = "Hello " ++ req.Name ∧
    (grpc.testHandler.Hello req rsp).2 = none ∧
    (Say.Hello ⟨"John"⟩ rsp).1 = ⟨"Hello John"⟩ ∧
    (grpc.testHandler.Hello ⟨"John"⟩ rsp).1 = ⟨"Hello John"⟩ := by
  refine ⟨rfl, rfl, rfl, rfl, rfl, ?_, ?_⟩ <;> simp [Say.Hello, grpc.testHandler.Hello]

/-- C9, the code at the failing input: the source comments say "create options
with priority for our opts", yet the caller's options are appended after the
package's. At the caller list `[Client(c2), Server(s2)]` the client and server
of the runtimes returned by `NewService` and `NewFunction` are the caller's
`c2` and `s2`, not the grpc client and server created in the constructor. -/
theorem grpc.caller_client_server_replace_constructor :
    (grpc.NewService micro.sampleDefaults ⟨1⟩ ⟨1⟩ [.Client ⟨2⟩, .Server ⟨2⟩]).opts.client
      = ⟨2⟩ ∧
    (grpc.NewService micro.sampleDefaults ⟨1⟩ ⟨1⟩ [.Client ⟨2⟩, .Server ⟨2⟩]).opts.server
      = ⟨2⟩ ∧
    (grpc.NewFunction micro.sampleDefaults ⟨1⟩ ⟨1⟩ [.Client ⟨2⟩, .Server ⟨2⟩]).opts.client
      = ⟨2⟩ ∧
    (grpc.NewFunction micro.sampleDefaults ⟨1⟩ ⟨1⟩ [.Client ⟨2⟩, .Server ⟨2⟩]).opts.server
      = ⟨2⟩ ∧
    (grpc.NewService micro.sampleDefaults ⟨1⟩ ⟨1⟩ [.Client ⟨2⟩, .Server ⟨2⟩]).opts.client
      ≠ ⟨1⟩ ∧
    (grpc.NewService micro.sampleDefaults ⟨1⟩ ⟨1⟩ [.Client ⟨2⟩, .Server ⟨2⟩]).opts.server
      ≠ ⟨1⟩ ∧
    (grpc.NewFunction micro.sampleDefaults ⟨1⟩ ⟨1⟩ [.Client ⟨2⟩, .Server ⟨2⟩]).opts.client
      ≠ ⟨1⟩ ∧
    (grpc.NewFunction micro.sampleDefaults ⟨1⟩ ⟨1⟩ [.Client ⟨2⟩, .Server ⟨2⟩]).opts.server
      ≠ ⟨1⟩ := by
  refine ⟨rfl, rfl, rfl, rfl, ?_, ?_, ?_, ?_⟩ <;> decide

/-- C10: for every caller option list `opts`, the list handed to the framework
is the constructor's defaults followed by `opts`: `NewService` passes
`[Client(c), Server(s)] ++ opts`, of length `2 + len(opts)`, and `NewFunction`
passes `[Client(c), Server(s), RegisterTTL(1 minute), RegisterInterval(30 s)]
++ opts`, of length `4 + len(opts)`; what follows the defaults is `opts` itself,
element by element (nothing dropped, duplicated or reordered; `append` only
reads `opts`, which is the same sequence after the call), and `NewFunction(opts)`
builds the list of the Service construction applied to
`[RegisterTTL(1 minute), RegisterInterval(30 s)] ++ opts`. -/
theorem grpc.options_are_defaults_then_opts (c : client.Client) (s : server.Server)
    (opts : List micro.Option) :
    grpc.NewService.options c s opts = [.Client c, .Server s] ++ opts ∧
    (grpc.NewService.options c s opts).length = 2 + opts.length ∧
    grpc.NewFunction.options c s opts
      = [.Client c, .Server s, .RegisterTTL time.Minute,
          .RegisterInterval (time.Second * 30)] ++ opts ∧
    (grpc.NewFunction.options c s opts).length = 4 + opts.length ∧
    (grpc.NewService.options c s opts).take 2 = [.Client c, .Server s] ∧
    (grpc.NewService.options c s opts).drop 2 = opts ∧
    (grpc.NewFunction.options c s opts).take 4
      = [.Client c, .Server s, .RegisterTTL time.Minute,
          .RegisterInterval (time.Second * 30)] ∧
    (grpc.NewFunction.options c s opts).drop 4 = opts ∧
    (∀ i : Nat, (grpc.NewService.options c s opts)[2 + i]? = opts[i]?) ∧
    (∀ i : Nat, (grpc.NewFunction.options c s opts)[4 + i]? = opts[i]?) ∧
    grpc.NewFunction.options c s opts
      = grpc.NewService.options c s
          ([.RegisterTTL time.Minute, .RegisterInterval (time.Second * 30)] ++ opts) ∧
    (∀ d : micro.Options, (grpc.NewFunction d c s opts).opts
      = (grpc.NewService d c s
          ([.RegisterTTL time.Minute, .RegisterInterval (time.Second * 30)] ++ opts)).opts) := by
  refine ⟨rfl, ?_, rfl, ?_, rfl, rfl, rfl, rfl, ?_, ?_, rfl, fun _ => rfl⟩
  · simp [grpc.NewService.options]; omega
  · simp [grpc.NewFunction.options]; omega
  · intro i
    simp [grpc.NewService.options, Nat.add_comm 2 i]
  · intro i
    simp [grpc.NewFunction.options, Nat.add_comm 4 i]
